import Mathlib

/-!
Shallow embedding of the decision-governance engine
(`app/governance.py`, `app/governance_deterministic.py`, `app/decision_pack.py`,
`app/graph_repository.py`, `app/routers/normalizers.py`, `app/extractor.py`).

Python floats are modelled as rationals.  Every numeric constant appearing in
the engine (severity weights 8.0 / 3.0 / 1.5 / 0.5 / 1.0, thresholds 4.0 / 7.0,
confidence bounds) is a dyadic rational, exactly representable in binary
floating point, so the rational semantics coincides with the float semantics
on all values the engine manipulates.
-/

namespace DecisionGov

/-- `strategic_impact` enumeration from `app/schemas/domain.py` (`StrategicImpact`). -/
inductive StrategicImpact
| low
| medium
| high
| critical
deriving DecidableEq, Repr

/-- The `.value` attribute of the Python `str`-enum. -/
def StrategicImpact.value : StrategicImpact → String
| .low => "low"
| .medium => "medium"
| .high => "high"
| .critical => "critical"

/-- `ApprovalLevel` enumeration from `app/schemas/domain.py`. -/
inductive ApprovalLevel
| team_lead
| department_head
| vp
| c_level
| board
deriving DecidableEq, Repr

/-- `Goal` model from `app/schemas/domain.py`. -/
structure Goal where
  description : String
  metric : Option String
deriving DecidableEq, Repr

/-- `KPI` model from `app/schemas/domain.py`. -/
structure KPI where
  name : String
  target : Option String
deriving DecidableEq, Repr

/-- `Risk` model from `app/schemas/domain.py`. -/
structure Risk where
  description : String
  severity : Option String
  mitigation : Option String
deriving DecidableEq, Repr

/-- `Owner` model from `app/schemas/domain.py`. -/
structure Owner where
  name : String
  role : Option String
deriving DecidableEq, Repr

/-- `Assumption` model from `app/schemas/domain.py`. -/
structure Assumption where
  description : String
  criticality : Option String
deriving DecidableEq, Repr

/-- `ApprovalChainStep` model from `app/schemas/domain.py`. -/
structure ApprovalChainStep where
  level : ApprovalLevel
  role : String
  required : Bool
  rationale : Option String
  source_rule_id : Option String
  rule_action : Option String
deriving DecidableEq, Repr

/-- `Decision` model from `app/schemas/domain.py`.  Field names and order follow
the source.  `None` becomes `Option.none`; floats become rationals. -/
structure Decision where
  decision_statement : String
  goals : List Goal
  kpis : List KPI
  risks : List Risk
  owners : List Owner
  required_approvals : List String
  assumptions : List Assumption
  confidence : ℚ
  counterparty_relation : Option String
  policy_change_type : Option String
  uses_pii : Option Bool
  cost : Option ℚ
  cost_estimate_range : Option String
  target_market : Option String
  launch_date : Option Bool
  involves_hiring : Option Bool
  involves_compliance_risk : Option Bool
  headcount_change : Option Int
  risk_score : Option ℚ
  strategic_impact : Option StrategicImpact
  approval_chain : Option (List ApprovalChainStep)
deriving DecidableEq, Repr

/-- A personnel record from the tenant file's `approval_hierarchy.personnel`
list (see spec section 6 for the tenant-file schema consumed by
`app/governance.py`). -/
structure Person where
  id : String
  name : String
  role : String
  level : Nat
  reports_to : Option String
deriving DecidableEq, Repr

/-! ### Executable string helpers

Lean core's `String.toLower`, `String.toUpper` and `String.take` do not reduce
inside the kernel, so the Python string operations are modelled directly on
character lists.  The engine's data is ASCII-or-Korean; Python's `.lower()` and
`.upper()` act on the ASCII range exactly as below and fix Korean characters. -/

/-- ASCII lowercase of one character (Python `str.lower` on the ASCII range). -/
def charLower (c : Char) : Char :=
  if 65 ≤ c.toNat ∧ c.toNat ≤ 90 then Char.ofNat (c.toNat + 32) else c

/-- ASCII uppercase of one character (Python `str.upper` on the ASCII range). -/
def charUpper (c : Char) : Char :=
  if 97 ≤ c.toNat ∧ c.toNat ≤ 122 then Char.ofNat (c.toNat - 32) else c

/-- Python `s.lower()`. -/
def pyLower (s : String) : String := ⟨s.data.map charLower⟩

/-- Python `s.upper()`. -/
def pyUpper (s : String) : String := ⟨s.data.map charUpper⟩

/-- Python `s[:n]` (slicing counts code points, as `List Char` does). -/
def pyTakeStr (n : Nat) (s : String) : String := ⟨s.data.take n⟩

/-- Does the character list start with the given needle? -/
def startsWithChars : List Char → List Char → Bool
| [], _ => true
| _ :: _, [] => false
| n :: ns, h :: hs => n == h && startsWithChars ns hs

/-- Substring occurrence on character lists. -/
def containsSubChars : List Char → List Char → Bool
| [], needle => startsWithChars needle []
| h :: hs, needle => startsWithChars needle (h :: hs) || containsSubChars hs needle

/-- Python `needle in hay` for strings. -/
def strContains (hay needle : String) : Bool := containsSubChars hay.data needle.data

/-- Severity weight used by `compute_risk_score` (`app/governance.py`):
`severity_weights.get((risk.severity or "medium").lower(), 1.0)`. -/
def severityWeight (sev : Option String) : ℚ :=
  match pyLower (sev.getD "medium") with
  | "critical" => 8
  | "high" => 3
  | "medium" => 3/2
  | "low" => 1/2
  | _ => 1

/-- `compute_risk_score` from `app/governance.py`.  The source ends with
`round(min(total, 10.0), 1)`; every reachable total is a multiple of 1/2, on
which rounding to one decimal place is the identity, so the `round` is
omitted. -/
def compute_risk_score (decision : Decision) : ℚ :=
  match decision.risk_score with
  | some s => s
  | none =>
    if decision.risks = [] then 0
    else min ((decision.risks.map (fun r => severityWeight r.severity)).sum) 10

/-! ### Python value universe for rule evaluation

`extract_field_value` (`app/governance.py`) returns whatever object sits on the
`Decision` attribute: a string, a float/int, a bool, `None`, or a non-scalar
object (a list of models).  `vother` stands for the non-scalar case. -/

/-- A dynamically-typed Python value as seen by the rule evaluator. -/
inductive PyVal
| vnone
| vbool (b : Bool)
| vnum (q : ℚ)
| vstr (s : String)
| vother
deriving DecidableEq, Repr

/-- Python numeric coercion: `bool` is an `int` subtype (`True == 1`). -/
def PyVal.toNumQ : PyVal → Option ℚ
| .vnum q => some q
| .vbool b => some (if b then 1 else 0)
| _ => none

/-- Lexicographic code-point order on character lists (Python string `<`). -/
def charListLt : List Char → List Char → Bool
| [], [] => false
| [], _ :: _ => true
| _ :: _, [] => false
| a :: as, b :: bs => a < b || (a == b && charListLt as bs)

/-- Python `a < b`.  Defined on number/number (bools coerce) and
string/string; a cross-kind ordering raises `TypeError` in the source and is
modelled as an untriggered condition (`false`). -/
def pyLt (a b : PyVal) : Bool :=
  match a.toNumQ, b.toNumQ with
  | some x, some y => decide (x < y)
  | _, _ =>
    match a, b with
    | .vstr s, .vstr t => charListLt s.data t.data
    | _, _ => false

/-- Python `a <= b`; same domain remarks as `pyLt`. -/
def pyLe (a b : PyVal) : Bool :=
  match a.toNumQ, b.toNumQ with
  | some x, some y => decide (x ≤ y)
  | _, _ =>
    match a, b with
    | .vstr s, .vstr t => charListLt s.data t.data || s == t
    | _, _ => false

/-- Python `a == b`: numbers compare by value (bools coerce), strings by
content, `None == None`; values of different kinds compare unequal. -/
def pyEq (a b : PyVal) : Bool :=
  match a.toNumQ, b.toNumQ with
  | some x, some y => decide (x = y)
  | _, _ =>
    match a, b with
    | .vstr s, .vstr t => s == t
    | .vnone, .vnone => true
    | _, _ => false

/-- Python `str(value)` as used by the `contains` operator.  (The source only
ever applies it to string-valued rule constants; the numeric rendering below
is a stand-in for CPython float formatting, which no claim depends on.) -/
def pyStr : PyVal → String
| .vstr s => s
| .vbool true => "True"
| .vbool false => "False"
| .vnone => "None"
| .vnum q => toString q
| .vother => ""

/-- Lift an optional string attribute to a `PyVal`. -/
def PyVal.ofStrOpt : Option String → PyVal
| some s => .vstr s
| none => .vnone

/-- Lift an optional bool attribute to a `PyVal`. -/
def PyVal.ofBoolOpt : Option Bool → PyVal
| some b => .vbool b
| none => .vnone

/-- Lift an optional numeric attribute to a `PyVal`. -/
def PyVal.ofNumOpt : Option ℚ → PyVal
| some q => .vnum q
| none => .vnone

/-- `extract_field_value` from `app/governance.py`.  `hasattr` is true for
every declared `Decision` field, so declared fields resolve to the attribute
(possibly `None`) and only unknown names fall through to `company_context`.
List-valued attributes are non-scalar Python objects (`vother`).  (Python
would also expose model methods for exotic names such as `"dict"`; no tenant
rule references such a name and the model routes them to the context.) -/
def extract_field_value (field : String) (decision : Decision)
    (company_context : List (String × PyVal)) : PyVal :=
  match field with
  | "decision_statement" => .vstr decision.decision_statement
  | "goals" => .vother
  | "kpis" => .vother
  | "risks" => .vother
  | "owners" => .vother
  | "required_approvals" => .vother
  | "assumptions" => .vother
  | "confidence" => .vnum decision.confidence
  | "counterparty_relation" => PyVal.ofStrOpt decision.counterparty_relation
  | "policy_change_type" => PyVal.ofStrOpt decision.policy_change_type
  | "uses_pii" => PyVal.ofBoolOpt decision.uses_pii
  | "cost" => PyVal.ofNumOpt decision.cost
  | "cost_estimate_range" => PyVal.ofStrOpt decision.cost_estimate_range
  | "target_market" => PyVal.ofStrOpt decision.target_market
  | "launch_date" => PyVal.ofBoolOpt decision.launch_date
  | "involves_hiring" => PyVal.ofBoolOpt decision.involves_hiring
  | "involves_compliance_risk" => PyVal.ofBoolOpt decision.involves_compliance_risk
  | "headcount_change" =>
    match decision.headcount_change with
    | some n => .vnum (n : ℚ)
    | none => .vnone
  | "risk_score" => PyVal.ofNumOpt decision.risk_score
  | "strategic_impact" =>
    match decision.strategic_impact with
    | some si => .vstr si.value
    | none => .vnone
  | "approval_chain" => .vother
  | f => (company_context.lookup f).getD .vnone

/-- A single `{field, operator, value}` condition triple (spec 3.3). -/
structure Condition where
  field : String
  op : String
  value : PyVal
deriving DecidableEq, Repr

/-- A rule condition: a single triple or an `OR` of triples. -/
inductive RuleCondition
| single (c : Condition)
| disj (conditions : List Condition)
deriving DecidableEq, Repr

/-- A rule `consequence`.  `approver_roles` / `approver_ids` are the lists
after the source's `consequence.get("approver_roles") or
[consequence.get("approver_role")]` normalization; a missing approver id is
the empty string, which the source's truthiness check skips. -/
structure Consequence where
  action : Option String
  approver_roles : List String
  approver_ids : List String
  severity : Option String
deriving DecidableEq, Repr

/-- A governance rule from a tenant file (spec 3.3). -/
structure Rule where
  rule_id : String
  name : String
  description : String
  rtype : Option String
  active : Bool
  condition : RuleCondition
  consequence : Consequence
deriving DecidableEq, Repr

/-- The slice of a tenant file consumed by the rule engine:
`approval_hierarchy.personnel` and `governance_rules`. -/
structure RulesData where
  personnel : List Person
  governance_rules : List Rule
deriving DecidableEq, Repr

/-- `evaluate_single_condition` from `app/governance.py` (the returned
`{"field": field}` payload is discarded by every caller and is not
modelled). -/
def evaluate_single_condition (condition : Condition) (decision : Decision)
    (company_context : List (String × PyVal)) : Bool :=
  let actual := extract_field_value condition.field decision company_context
  match condition.op with
  | ">" => !(actual == .vnone) && pyLt condition.value actual
  | ">=" => !(actual == .vnone) && pyLe condition.value actual
  | "<" => !(actual == .vnone) && pyLt actual condition.value
  | "<=" => !(actual == .vnone) && pyLe actual condition.value
  | "==" => pyEq actual condition.value
  | "!=" => !(pyEq actual condition.value)
  | "contains" =>
    match actual with
    | .vstr s => strContains (pyLower s) (pyLower (pyStr condition.value))
    | _ => false
  | "overlaps_with" => actual == .vbool true
  | _ => false

/-- `evaluate_company_rule` from `app/governance.py`: `OR` short-circuits on
the first true sub-condition.  (The source's second tuple component is
discarded by the caller and is not modelled.) -/
def evaluate_company_rule (rule : Rule) (decision : Decision)
    (company_context : List (String × PyVal)) : Bool :=
  match rule.condition with
  | .disj cs => cs.any (fun c => evaluate_single_condition c decision company_context)
  | .single c => evaluate_single_condition c decision company_context

/-- `get_approver_level` from `app/governance.py`: the first personnel record
with the given id supplies the level, default 1. -/
def get_approver_level (approver_id : String) (rules_data : RulesData) : Nat :=
  match rules_data.personnel.find? (fun p => p.id = approver_id) with
  | some p => p.level
  | none => 1

/-- The `level_map` dictionary in `select_approval_chain`
(`app/governance.py`), defaulting to `TEAM_LEAD`. -/
def levelToApprovalLevel (level : Nat) : ApprovalLevel :=
  match level with
  | 1 => ApprovalLevel.team_lead
  | 2 => ApprovalLevel.department_head
  | 3 => ApprovalLevel.vp
  | 4 => ApprovalLevel.c_level
  | _ => ApprovalLevel.team_lead

/-- A triggered-rule record as appended by `select_approval_chain`
(`app/governance.py`): `{rule_id, name, description, rule_type}` with
`rule_type = rule.get("type", "unknown")`. -/
structure TriggeredRuleInfo where
  rule_id : String
  name : String
  description : String
  rule_type : String
deriving DecidableEq, Repr

/-- The inner `for role, approver_id in zip(...)` loop of
`select_approval_chain`: append a chain step for each approver id that is
truthy and not yet in `approval_set`. -/
def addApprovers (rule : Rule) (rules_data : RulesData) :
    List (String × String) → List String → List ApprovalChainStep × List String
| [], seen => ([], seen)
| (role, approver_id) :: rest, seen =>
  if approver_id ≠ "" ∧ approver_id ∉ seen then
    let step : ApprovalChainStep :=
      { level := levelToApprovalLevel (get_approver_level approver_id rules_data),
        role := role, required := true,
        rationale := some rule.description,
        source_rule_id := some rule.rule_id,
        rule_action := rule.consequence.action }
    let tail := addApprovers rule rules_data rest (approver_id :: seen)
    (step :: tail.1, tail.2)
  else addApprovers rule rules_data rest seen

/-- The per-rule consequence handling of `select_approval_chain`: only
`require_approval` / `require_review` add approvers (`require_goal_mapping`
adds none, per the source comment). -/
def stepsForRule (rule : Rule) (rules_data : RulesData) (seen : List String) :
    List ApprovalChainStep × List String :=
  if rule.consequence.action = some "require_approval" ∨
     rule.consequence.action = some "require_review" then
    addApprovers rule rules_data
      (rule.consequence.approver_roles.zip rule.consequence.approver_ids) seen
  else ([], seen)

/-- The rule-iteration loop of `select_approval_chain`
(`app/governance.py`): skip inactive rules; for each triggered rule record a
`TriggeredRuleInfo` and append its approval steps. -/
def selectChainGo (decision : Decision) (rules_data : RulesData)
    (company_context : List (String × PyVal)) :
    List Rule → List String → List ApprovalChainStep × List TriggeredRuleInfo
| [], _seen => ([], [])
| rule :: rest, seen =>
  if !rule.active then selectChainGo decision rules_data company_context rest seen
  else if evaluate_company_rule rule decision company_context then
    let info : TriggeredRuleInfo :=
      ⟨rule.rule_id, rule.name, rule.description, rule.rtype.getD "unknown"⟩
    let this_rule := stepsForRule rule rules_data seen
    let tail := selectChainGo decision rules_data company_context rest this_rule.2
    (this_rule.1 ++ tail.1, info :: tail.2)
  else selectChainGo decision rules_data company_context rest seen

/-- `select_approval_chain` from `app/governance.py`. -/
def select_approval_chain (decision : Decision) (rules_data : RulesData)
    (company_context : List (String × PyVal)) :
    List ApprovalChainStep × List TriggeredRuleInfo :=
  selectChainGo decision rules_data company_context rules_data.governance_rules []

/-- The inner personnel scan of `infer_owner_from_approval_chain`: keep the
strictly lowest-level personnel record whose role matches the step role
case-insensitively. -/
def scanPersonnel (stepRole : String) :
    List Person → Nat × Option Person → Nat × Option Person
| [], st => st
| p :: ps, (lvl, best) =>
  if pyUpper p.role = pyUpper stepRole ∧ p.level < lvl then
    scanPersonnel stepRole ps (p.level, some p)
  else scanPersonnel stepRole ps (lvl, best)

/-- The outer chain scan of `infer_owner_from_approval_chain`. -/
def scanChain (personnel : List Person) :
    List ApprovalChainStep → Nat × Option Person → Nat × Option Person
| [], st => st
| s :: rest, st => scanChain personnel rest (scanPersonnel s.role personnel st)

/-- The lowest-level approver resolved against personnel, starting from the
source's sentinel `lowest_level = 999`. -/
def findLowestApprover (chain : List ApprovalChainStep) (personnel : List Person) :
    Option Person :=
  (scanChain personnel chain (999, none)).2

/-- `infer_owner_from_approval_chain` from `app/governance.py`
(`personnel` is `rules_data['approval_hierarchy']['personnel']`).  The
source's `if not lowest_approver_id` treats the empty string as a failed
resolution. -/
def infer_owner_from_approval_chain (chain : List ApprovalChainStep)
    (personnel : List Person) : Option String :=
  if chain = [] then none
  else
    match findLowestApprover chain personnel with
    | none => none
    | some p =>
      if p.id = "" then none
      else
        match personnel.find? (fun q => q.reports_to = some p.id) with
        | some direct_report => some direct_report.role
        | none => some p.role

/-- `GovernanceFlag` enumeration from `app/governance.py`. -/
inductive GovernanceFlag
| MISSING_APPROVAL
| PRIVACY_REVIEW_REQUIRED
| CRITICAL_CONFLICT
| HIGH_RISK
| STRATEGIC_CRITICAL
| STRATEGIC_MISALIGNMENT
| MISSING_OWNER
| MISSING_RISK_ASSESSMENT
| FINANCIAL_THRESHOLD_EXCEEDED
| GOVERNANCE_COVERAGE_GAP
deriving DecidableEq, Repr

/-- The `.value` string of a `GovernanceFlag`. -/
def flagValue : GovernanceFlag → String
| .MISSING_APPROVAL => "MISSING_APPROVAL"
| .PRIVACY_REVIEW_REQUIRED => "PRIVACY_REVIEW_REQUIRED"
| .CRITICAL_CONFLICT => "CRITICAL_CONFLICT"
| .HIGH_RISK => "HIGH_RISK"
| .STRATEGIC_CRITICAL => "STRATEGIC_CRITICAL"
| .STRATEGIC_MISALIGNMENT => "STRATEGIC_MISALIGNMENT"
| .MISSING_OWNER => "MISSING_OWNER"
| .MISSING_RISK_ASSESSMENT => "MISSING_RISK_ASSESSMENT"
| .FINANCIAL_THRESHOLD_EXCEEDED => "FINANCIAL_THRESHOLD_EXCEEDED"
| .GOVERNANCE_COVERAGE_GAP => "GOVERNANCE_COVERAGE_GAP"

/-- Python truthiness of an optional string (the source's `if not inferred`):
falsy when `None` or the empty string. -/
def pythonFalsyStrOpt (o : Option String) : Bool :=
  match o with
  | none => true
  | some s => s == ""

/-- `detect_flags` from `app/governance.py`, written as the concatenation of
the source's sequential `flags.append(...)` blocks, in source order.  The
first block folds the source's nested `if not decision.owners: inferred = …;
if not inferred: append` into one conditional append.
(`company_context` is unused by the source body as well.) -/
def detect_flags (decision : Decision) (_company_context : List (String × PyVal))
    (computed_risk_score : ℚ) (triggered_rules : List TriggeredRuleInfo)
    (approval_chain : List ApprovalChainStep) (rules_data : RulesData) :
    List GovernanceFlag :=
  (if decision.owners = [] ∧
      pythonFalsyStrOpt
        (infer_owner_from_approval_chain approval_chain rules_data.personnel) = true then
     [GovernanceFlag.MISSING_OWNER]
   else [])
  ++ (if decision.risks = [] then [GovernanceFlag.MISSING_RISK_ASSESSMENT] else [])
  ++ (if computed_risk_score ≥ 7 then [GovernanceFlag.HIGH_RISK] else [])
  ++ (if decision.strategic_impact = some StrategicImpact.critical then
        [GovernanceFlag.STRATEGIC_CRITICAL] else [])
  ++ (if decision.kpis.length > 5 ∨ decision.goals.length > 5 then
        [GovernanceFlag.CRITICAL_CONFLICT] else [])
  ++ (if triggered_rules.any (fun r => r.rule_type = "privacy") then
        [GovernanceFlag.PRIVACY_REVIEW_REQUIRED] else [])
  ++ (if triggered_rules.any (fun r => r.rule_type = "financial") then
        [GovernanceFlag.FINANCIAL_THRESHOLD_EXCEEDED] else [])
  ++ (if triggered_rules.any (fun r => r.rule_type = "strategic") then
        [GovernanceFlag.STRATEGIC_CRITICAL] else [])
  ++ (if triggered_rules = [] ∧
         (decision.goals.length > 0 ∨ decision.kpis.length > 0 ∨
          decision.risks.length > 0) ∧
         decision.confidence > 3/10 then
        [GovernanceFlag.GOVERNANCE_COVERAGE_GAP] else [])

/-- `GovernanceResult` from `app/governance.py`. -/
structure GovernanceResult where
  approval_chain : List ApprovalChainStep
  flags : List GovernanceFlag
  requires_human_review : Bool
  triggered_rules : List TriggeredRuleInfo
  computed_risk_score : ℚ
deriving DecidableEq, Repr

/-- `evaluate_governance` from `app/governance.py`, as the pipeline invokes it
(`use_o1=False` in `app/extractor.py` and `app/services/pipeline_service.py`,
so the o1 branch is dead and not modelled; `load_rules` is replaced by the
`rules_data` argument).  The source mutates its `decision` argument
(`decision.risk_score = computed_risk_score` when it was `None`); the
post-state is returned as the second component. -/
def evaluate_governance (decision : Decision) (rules_data : RulesData)
    (company_context : List (String × PyVal)) : GovernanceResult × Decision :=
  let computed_risk_score := compute_risk_score decision
  let decision2 :=
    if decision.risk_score = none then
      { decision with risk_score := some computed_risk_score }
    else decision
  let sc := select_approval_chain decision2 rules_data company_context
  let flags := detect_flags decision2 company_context computed_risk_score sc.2 sc.1 rules_data
  let compliance_triggered := sc.2.any (fun r =>
    r.rule_type = "compliance" || r.rule_type = "privacy" ||
    r.rule_type = "strategic" || r.rule_type = "financial")
  let requires_human_review :=
    decide (flags.length > 0) || decide (sc.1.length > 0) || compliance_triggered ||
    decide (computed_risk_score ≥ 7) ||
    (match decision2.strategic_impact with
     | some si => si.value == "high" || si.value == "critical"
     | none => false) ||
    decide (decision2.confidence < 7/10)
  (⟨sc.1, flags, requires_human_review, sc.2, computed_risk_score⟩, decision2)

/-! ### Deterministic engine (`app/governance_deterministic.py`) -/

/-- An approval requirement appended by `enforce_rules`
(`app/governance_deterministic.py`): `{approver_id, approver_role, rule_id,
reason, severity}`, with `severity = consequence.get('severity', 'medium')`. -/
structure ApprovalRequirement where
  approver_id : String
  approver_role : String
  rule_id : String
  reason : String
  severity : String
deriving DecidableEq, Repr

/-- An entry of `unique_approvals` in `build_approval_chain`
(`app/governance_deterministic.py`). -/
structure UniqueApproval where
  approver_id : String
  approver_name : String
  approver_role : String
  level : Nat
  reasons : List String
  triggered_rules : List String
  severity : String
deriving DecidableEq, Repr

/-- The `severities = {'low': 1, 'medium': 2, 'high': 3, 'critical': 4}`
lookup with default 2 from `build_approval_chain`. -/
def severityRankValue (s : String) : Nat :=
  match s with
  | "low" => 1
  | "medium" => 2
  | "high" => 3
  | "critical" => 4
  | _ => 2

/-- The severity-escalation step of `build_approval_chain`: replace the
current severity only when the incoming one ranks strictly higher. -/
def escalateSeverity (current incoming : String) : String :=
  if severityRankValue incoming > severityRankValue current then incoming else current

/-- `get_person_by_id` from `app/governance_deterministic.py`. -/
def get_person_by_id (personnel : List Person) (person_id : String) : Option Person :=
  personnel.find? (fun p => p.id = person_id)

/-- The duplicate-approver branch of `build_approval_chain`: append the
reason and rule id, escalate the severity. -/
def applyDuplicate (a : ApprovalRequirement) (u : UniqueApproval) : UniqueApproval :=
  { u with
    reasons := u.reasons ++ [a.reason],
    triggered_rules := u.triggered_rules ++ [a.rule_id],
    severity := escalateSeverity u.severity a.severity }

/-- One iteration of the deduplication loop in `build_approval_chain`: a
known approver id is updated in place; a new id is appended when the person
resolves against personnel, and silently dropped otherwise. -/
def insertApproval (personnel : List Person) (acc : List UniqueApproval)
    (a : ApprovalRequirement) : List UniqueApproval :=
  if acc.any (fun u => u.approver_id = a.approver_id) then
    acc.map (fun u => if u.approver_id = a.approver_id then applyDuplicate a u else u)
  else
    match get_person_by_id personnel a.approver_id with
    | some p =>
      acc ++ [{ approver_id := a.approver_id, approver_name := p.name,
                approver_role := a.approver_role, level := p.level,
                reasons := [a.reason], triggered_rules := [a.rule_id],
                severity := a.severity }]
    | none => acc

/-- Stable descending insertion by `level`: a later element is placed after
all elements of greater-or-equal level, matching Python's stable
`sorted(..., key=lambda x: x['level'], reverse=True)`. -/
def insertAfterGE (a : UniqueApproval) : List UniqueApproval → List UniqueApproval
| [] => [a]
| b :: rest => if b.level ≥ a.level then b :: insertAfterGE a rest else a :: b :: rest

/-- The final `sorted(unique_approvals.values(), key=level, reverse=True)` of
`build_approval_chain`, as a stable insertion sort. -/
def sortApprovalsDesc (l : List UniqueApproval) : List UniqueApproval :=
  l.foldl (fun acc a => insertAfterGE a acc) []

/-- `build_approval_chain` from `app/governance_deterministic.py`. -/
def build_approval_chain (approval_requirements : List ApprovalRequirement)
    (personnel : List Person) : List UniqueApproval :=
  sortApprovalsDesc (approval_requirements.foldl (insertApproval personnel) [])

/-! ### Pack builder (`app/decision_pack.py`) -/

/-- The governance dict handed to `build_decision_pack` — the image of
`GovernanceResult.to_dict()` (`app/governance.py`): flags become their string
values. -/
structure GovernanceDict where
  approval_chain : List ApprovalChainStep
  flags : List String
  requires_human_review : Bool
  triggered_rules : List TriggeredRuleInfo
  computed_risk_score : ℚ
deriving DecidableEq, Repr

/-- `GovernanceResult.to_dict` from `app/governance.py` (restricted to the
fields `build_decision_pack` reads). -/
def GovernanceResult.to_dict (r : GovernanceResult) : GovernanceDict :=
  ⟨r.approval_chain, r.flags.map flagValue, r.requires_human_review,
   r.triggered_rules, r.computed_risk_score⟩

/-- The slice of the optional `graph_insights` argument that
`build_decision_pack` consults before computing the governance status. -/
structure GraphInsights where
  strategic_goal_conflicts : List String
  next_actions : List String
  analysis_method : String
deriving DecidableEq, Repr

/-- `_determine_risk_and_status` from `app/decision_pack.py`. -/
def determine_risk_and_status (flags : List String) (requires_human_review : Bool)
    (computed_risk_score : ℚ) : String × String :=
  if flags.any (fun f => strContains f "CRITICAL") then ("high", "blocked")
  else if computed_risk_score ≥ 7 then ("high", "needs_review")
  else if requires_human_review = true ∨ flags.length > 0 ∨ computed_risk_score ≥ 4 then
    ("medium", "needs_review")
  else ("low", "compliant")

/-- `_generate_title` from `app/decision_pack.py` (`strategic_impact` is the
string taken from the decision dict). -/
def generate_title (decision_statement : String) (strategic_impact : Option String) :
    String :=
  let t := pyTakeStr 80 decision_statement
  let truncated := if decision_statement.data.length > 80 then t ++ "..." else t
  match strategic_impact with
  | some si =>
    if si = "critical" ∨ si = "high" then "[" ++ pyUpper si ++ "] " ++ truncated
    else truncated
  | none => truncated

/-- The `summary` section of a Decision Pack (`app/decision_pack.py`). -/
structure DecisionPackSummary where
  decision_statement : String
  human_approval_required : Bool
  risk_level : String
  governance_status : String
  confidence_score : ℚ
  strategic_impact : String
deriving DecidableEq, Repr

/-- The Decision Pack, restricted to the sections the verified claims speak
about (title, summary, approval chain pass-through, audit flags / rules /
risk score).  Presentation-only sections (goals_kpis, owners, assumptions,
missing_items, recommended_next_actions, conclusion_reason, graph_reasoning)
are omitted. -/
structure DecisionPack where
  title : String
  summary : DecisionPackSummary
  approval_chain : List ApprovalChainStep
  audit_flags : List String
  audit_triggered_rules : List TriggeredRuleInfo
  audit_computed_risk_score : ℚ
deriving DecidableEq, Repr

/-- `build_decision_pack` from `app/decision_pack.py` (the modelled
sections).  Before the status is computed, the source appends
`STRATEGIC_MISALIGNMENT` to the flag copy when graph insights report
strategic-goal conflicts and the flag is not already present. -/
def build_decision_pack (decision : Decision) (governance : GovernanceDict)
    (graph_insights : Option GraphInsights) : DecisionPack :=
  let flags :=
    match graph_insights with
    | some gi =>
      if gi.strategic_goal_conflicts ≠ [] ∧ "STRATEGIC_MISALIGNMENT" ∉ governance.flags
      then governance.flags ++ ["STRATEGIC_MISALIGNMENT"]
      else governance.flags
    | none => governance.flags
  let rl_gs := determine_risk_and_status flags governance.requires_human_review
    governance.computed_risk_score
  { title := generate_title decision.decision_statement
      (decision.strategic_impact.map StrategicImpact.value),
    summary :=
      { decision_statement := decision.decision_statement,
        human_approval_required := governance.requires_human_review,
        risk_level := rl_gs.1,
        governance_status := rl_gs.2,
        confidence_score := decision.confidence,
        strategic_impact :=
          (decision.strategic_impact.map StrategicImpact.value).getD "not_specified" },
    approval_chain := governance.approval_chain,
    audit_flags := flags,
    audit_triggered_rules := governance.triggered_rules,
    audit_computed_risk_score := governance.computed_risk_score }

/-! ### Graph store (`app/graph_repository.py`, `app/graph_ontology.py`) -/

/-- `NodeType` from `app/graph_ontology.py` (the five declared members). -/
inductive NodeType
| Actor
| Action
| Policy
| Risk
| Resource
deriving DecidableEq, Repr

/-- A graph node (`Node` from `app/graph_ontology.py`; the `properties` bag
is irrelevant to the traversal claims). -/
structure GNode where
  id : String
  ntype : NodeType
  label : String
deriving DecidableEq, Repr

/-- A graph edge (`Edge` from `app/graph_ontology.py`). -/
structure GEdge where
  from_node : String
  to_node : String
  predicate : String
deriving DecidableEq, Repr

/-- The state of `InMemoryGraphRepository`: `_nodes` (an insertion-ordered id
map, so node ids are unique) and `_edges`. -/
structure GraphState where
  nodes : List GNode
  edges : List GEdge
deriving DecidableEq, Repr

/-- Set insertion for the BFS working sets (Python `set.add`; iteration order
of the model is insertion order). -/
def insertSet (x : String) (l : List String) : List String :=
  if x ∈ l then l else l ++ [x]

/-- The per-node edge scan of `get_governance_context`
(`app/graph_repository.py`): outgoing then incoming check per edge, against
the visited set frozen for this node. -/
def scanEdges (visited : List String) (node_id : String) :
    List GEdge → List String → List GEdge → List String × List GEdge
| [], next_level, acc => (next_level, acc)
| e :: rest, next_level, acc =>
  let s1 :=
    if e.from_node = node_id ∧ e.to_node ∉ visited then
      (insertSet e.to_node next_level, acc ++ [e])
    else (next_level, acc)
  let s2 :=
    if e.to_node = node_id ∧ e.from_node ∉ visited then
      (insertSet e.from_node s1.1, s1.2 ++ [e])
    else s1
  scanEdges visited node_id rest s2.1 s2.2

/-- The per-level loop of the BFS: each node of the current level is added to
`visited_nodes` before its edges are scanned. -/
def processLevel (edges : List GEdge) :
    List String → List String → List String → List GEdge →
    List String × List String × List GEdge
| [], visited, next_level, acc => (visited, next_level, acc)
| n :: rest, visited, next_level, acc =>
  let visited1 := insertSet n visited
  let s := scanEdges visited1 n edges next_level acc
  processLevel edges rest visited1 s.1 s.2

/-- The `for _ in range(depth)` loop of `get_governance_context`.  Note that
after the final round `current_level = next_level` is assigned but never
merged into `visited_nodes`; the model reproduces this. -/
def bfsRounds (edges : List GEdge) :
    Nat → List String → List String → List GEdge → List String × List GEdge
| 0, visited, _current, acc => (visited, acc)
| d + 1, visited, current, acc =>
  let s := processLevel edges current visited [] acc
  if s.2.1 = [] then (s.1, s.2.2)
  else bfsRounds edges d s.1 s.2.1 s.2.2

/-- The dict returned by `get_governance_context`: the visited node set is
partitioned by type into `actors` / `policies` / `risks`, and `metadata`
carries `node_count = len(visited_nodes)` and `edge_count`. -/
structure GovernanceContext where
  decision : Option GNode
  actors : List GNode
  policies : List GNode
  risks : List GNode
  edges : List GEdge
  node_count : Nat
  edge_count : Nat
  error : Bool
deriving DecidableEq, Repr

/-- `InMemoryGraphRepository.get_governance_context` from
`app/graph_repository.py` (the unknown-id early return is the `error := true`
record). -/
def get_governance_context (st : GraphState) (decision_id : String) (depth : Nat) :
    GovernanceContext :=
  if decision_id ∉ st.nodes.map (fun n => n.id) then
    { decision := none, actors := [], policies := [], risks := [], edges := [],
      node_count := 0, edge_count := 0, error := true }
  else
    let vb := bfsRounds st.edges depth [] [decision_id] []
    { decision := st.nodes.find? (fun n => n.id = decision_id),
      actors := st.nodes.filter (fun n => n.id ∈ vb.1 ∧ n.ntype = NodeType.Actor),
      policies := st.nodes.filter (fun n => n.id ∈ vb.1 ∧ n.ntype = NodeType.Policy),
      risks := st.nodes.filter (fun n => n.id ∈ vb.1 ∧ n.ntype = NodeType.Risk),
      edges := vb.2,
      node_count := vb.1.length,
      edge_count := vb.2.length,
      error := false }

/-! ### Response normalizer (`app/routers/normalizers.py`) -/

/-- Rule status stamped by the normalizer. -/
inductive RuleStatus
| TRIGGERED
| PASSED
deriving DecidableEq, Repr

/-- `NormalizedRule` (the fields produced by `_normalize_rules`;
the raw consequence pass-through is omitted). -/
structure NormalizedRule where
  rule_id : String
  name : String
  rtype : String
  description : String
  short_description : String
  status : RuleStatus
  severity : String
deriving DecidableEq, Repr

/-- The `rsplit(' ', 1)[0]` of `truncate_description`: drop the last
space-separated fragment, or keep everything when there is no space. -/
def rsplitFirstChars (cs : List Char) : List Char :=
  if ' ' ∈ cs then ((cs.reverse.dropWhile (fun c => c != ' ')).drop 1).reverse
  else cs

/-- `truncate_description` from `_normalize_rules`
(`app/routers/normalizers.py`), with its default `max_len = 80`. -/
def truncate_description (desc : String) : String :=
  if desc.data.length ≤ 80 then desc
  else String.mk (rsplitFirstChars (desc.data.take 77)) ++ "..."

/-- `_normalize_rules` from `app/routers/normalizers.py`.  The triggered-rule
dicts built by `select_approval_chain` carry no `severity` or `type` key, so
`rule.get("severity", "medium")` is always `"medium"` and
`rule.get("type", rule.get("rule_type", "governance"))` resolves to
`rule_type`.  `all_company_rules` stands for
`company_service.get_governance_rules(company_id)`
(`app/services/company_service.py`), which returns the tenant's full
`governance_rules` list with no filtering. -/
def normalize_rules (triggered_rules : List TriggeredRuleInfo)
    (all_company_rules : List Rule) : List NormalizedRule × List NormalizedRule :=
  let triggered_ids := triggered_rules.map (fun r => r.rule_id)
  let normalized_triggered := triggered_rules.map (fun r =>
    { rule_id := r.rule_id, name := r.name, rtype := r.rule_type,
      description := r.description,
      short_description := truncate_description r.description,
      status := RuleStatus.TRIGGERED, severity := "medium" : NormalizedRule })
  let passed := (all_company_rules.filter (fun r => r.rule_id ∉ triggered_ids)).map
    (fun r =>
      { rule_id := r.rule_id, name := r.name, rtype := r.rtype.getD "governance",
        description := r.description,
        short_description := truncate_description r.description,
        status := RuleStatus.PASSED,
        severity := r.consequence.severity.getD "medium" : NormalizedRule })
  (normalized_triggered, normalized_triggered ++ passed)

/-! ### Extractor (`app/extractor.py`) -/

/-- The slice of `DecisionExtractionResponse` that `DecisionExtractor.extract`
fills in (`app/extractor.py`). -/
structure ExtractionResult where
  decision : Decision
  retry_count : Nat
  success : Bool
  fallback_used : Bool
  approval_chain : List ApprovalChainStep
  flags : List GovernanceFlag
  triggered_rules : List TriggeredRuleInfo
  requires_human_review : Bool
  governance_status : String
deriving Repr

/-- `DecisionExtractor._create_fallback_decision` from `app/extractor.py`:
the truncated input (first 100 characters) inside the statement, empty
collections, `confidence = 0.1`, and Pydantic defaults (`None`) for every
governance field. -/
def create_fallback_decision (decision_text : String) : Decision :=
  { decision_statement := "[EXTRACTION FAILED] " ++ pyTakeStr 100 decision_text ++ "...",
    goals := [], kpis := [], risks := [], owners := [],
    required_approvals := ["Manual Review Required"], assumptions := [],
    confidence := 1/10,
    counterparty_relation := none, policy_change_type := none, uses_pii := none,
    cost := none, cost_estimate_range := none, target_market := none,
    launch_date := none, involves_hiring := none, involves_compliance_risk := none,
    headcount_change := none, risk_score := none, strategic_impact := none,
    approval_chain := none }

/-- The attempt loop of `DecisionExtractor.extract`.  `attempts i` abstracts
the i-th LLM call composed with JSON parsing and Pydantic validation
(`none` = that attempt raised and was caught).  Arguments: current attempt
index, remaining attempts.  The second component of the result counts the
attempts actually performed. -/
def extractAux (attempts : Nat → Option Decision) (rules_data : RulesData)
    (decision_text : String) : Nat → Nat → ExtractionResult × Nat
| i, 0 =>
  let fd := create_fallback_decision decision_text
  let gov := (evaluate_governance fd rules_data []).1
  ({ decision := fd, retry_count := i - 1, success := false, fallback_used := true,
     approval_chain := gov.approval_chain, flags := gov.flags,
     triggered_rules := gov.triggered_rules,
     requires_human_review := true, governance_status := "blocked" }, i)
| i, r + 1 =>
  match attempts i with
  | some d =>
    let gov := (evaluate_governance d rules_data []).1
    ({ decision := d, retry_count := i, success := true, fallback_used := false,
       approval_chain := gov.approval_chain, flags := gov.flags,
       triggered_rules := gov.triggered_rules,
       requires_human_review := gov.requires_human_review,
       governance_status := "review_required" }, i + 1)
  | none => extractAux attempts rules_data decision_text (i + 1) r

/-- `DecisionExtractor.extract` from `app/extractor.py`: `range(max_retries + 1)`
attempts, then a fallback response that always requires human review.  The
function is total (the source catches every per-attempt exception and never
raises). -/
def extract (max_retries : Nat) (attempts : Nat → Option Decision)
    (rules_data : RulesData) (decision_text : String) : ExtractionResult × Nat :=
  extractAux attempts rules_data decision_text 0 (max_retries + 1)

/-! ### Concrete fixtures for witnesses and counterexamples -/

/-- A small personnel hierarchy: a C-level approver with one direct report. -/
def personnelA : List Person :=
  [{ id := "p1", name := "Kim", role := "CFO", level := 4, reports_to := none },
   { id := "p2", name := "Lee", role := "Finance Lead", level := 2, reports_to := some "p1" }]

/-- An always-triggering operational rule with no approval consequence. -/
def ruleOperational : Rule :=
  { rule_id := "R_OP", name := "Operational check", description := "ops rule",
    rtype := some "operational", active := true,
    condition := RuleCondition.single ⟨"confidence", ">=", PyVal.vnum 0⟩,
    consequence := { action := none, approver_roles := [], approver_ids := [],
                     severity := none } }

/-- An always-triggering operational rule whose consequence carries
`severity: critical` (and no approval action). -/
def ruleCriticalSeverity : Rule :=
  { rule_id := "R_CRIT", name := "Critical severity rule", description := "crit rule",
    rtype := some "operational", active := true,
    condition := RuleCondition.single ⟨"confidence", ">=", PyVal.vnum 0⟩,
    consequence := { action := none, approver_roles := [], approver_ids := [],
                     severity := some "critical" } }

/-- An inactive rule (`active: false`), never evaluated by the engine. -/
def ruleInactive : Rule :=
  { rule_id := "R_OFF", name := "Disabled rule", description := "inactive rule",
    rtype := some "financial", active := false,
    condition := RuleCondition.single ⟨"confidence", ">=", PyVal.vnum 0⟩,
    consequence := { action := some "require_approval", approver_roles := ["CFO"],
                     approver_ids := ["p1"], severity := some "high" } }

/-- Tenant data with the single operational rule. -/
def rdOp : RulesData := ⟨personnelA, [ruleOperational]⟩

/-- Tenant data with the single critical-severity rule. -/
def rdCrit : RulesData := ⟨personnelA, [ruleCriticalSeverity]⟩

/-- A benign decision: one low risk, an explicit owner, confidence 0.7, no
governance-trigger attributes. -/
def dBase : Decision :=
  { decision_statement := "Upgrade development tools for productivity",
    goals := [], kpis := [],
    risks := [{ description := "minor disruption", severity := some "low",
                mitigation := none }],
    owners := [{ name := "Kim", role := some "CFO" }],
    required_approvals := [], assumptions := [],
    confidence := 7/10,
    counterparty_relation := none, policy_change_type := none, uses_pii := none,
    cost := none, cost_estimate_range := none, target_market := none,
    launch_date := none, involves_hiring := none, involves_compliance_risk := none,
    headcount_change := none, risk_score := none, strategic_impact := none,
    approval_chain := none }

/-- A KPI fixture used to build decisions with many KPIs. -/
def kpiStub : KPI := { name := "some KPI", target := none }

/-- The governance dict produced by evaluating `dBase` at confidence 0.5:
empty flags, empty chain, risk score 0.5, `requires_human_review = true`
(driven purely by confidence < 0.7). -/
def govLowConf : GovernanceDict :=
  GovernanceResult.to_dict
    (evaluate_governance { dBase with confidence := 1/2 } rdOp []).1

/-- The triggered-rule record that `select_approval_chain` emits for
`ruleOperational`. -/
def infoOp : TriggeredRuleInfo :=
  ⟨"R_OP", "Operational check", "ops rule", "operational"⟩

/-- Graph fixture: the decision node of a two-node store. -/
def gNodeD : GNode := { id := "d1", ntype := NodeType.Action, label := "decision" }

/-- Graph fixture: a risk node reachable from the decision node. -/
def gNodeR : GNode := { id := "r1", ntype := NodeType.Risk, label := "risk" }

/-- Graph fixture: the edge `d1 -[TRIGGERS]-> r1`. -/
def gEdgeDR : GEdge := { from_node := "d1", to_node := "r1", predicate := "TRIGGERS" }

/-- Graph fixture: a two-node, one-edge store. -/
def gState : GraphState := ⟨[gNodeD, gNodeR], [gEdgeDR]⟩

/-- Correctness of a single `unique_approvals` entry with respect to the
requirement list `pr`: its first reason / first rule id come from the first
requirement with its approver id, its severity is one of — and
rank-dominates — the severities of all requirements with that id, and some
requirement with that id exists. -/
def chainEntryOk (pr : List ApprovalRequirement) (u : UniqueApproval) : Prop :=
  ((pr.find? (fun a => a.approver_id = u.approver_id)).map (fun a => a.reason) =
      u.reasons.head?) ∧
  ((pr.find? (fun a => a.approver_id = u.approver_id)).map (fun a => a.rule_id) =
      u.triggered_rules.head?) ∧
  u.severity ∈ (pr.filter (fun a => a.approver_id = u.approver_id)).map
    (fun a => a.severity) ∧
  (∀ a ∈ pr, a.approver_id = u.approver_id →
      severityRankValue a.severity ≤ severityRankValue u.severity) ∧
  (∃ x ∈ pr, x.approver_id = u.approver_id)

/-- Invariant of the deduplication fold in `build_approval_chain`, relating
the accumulated `unique_approvals` entries to the prefix `pr` of requirements
already processed: approver ids are unique; each entry satisfies
`chainEntryOk`; and a requirement whose id never produced an entry has no
personnel record. -/
def chainBuildInv (personnel : List Person) (pr : List ApprovalRequirement)
    (acc : List UniqueApproval) : Prop :=
  (acc.map (fun u => u.approver_id)).Nodup ∧
  (∀ u ∈ acc, chainEntryOk pr u) ∧
  (∀ x ∈ pr, (∀ u ∈ acc, u.approver_id ≠ x.approver_id) →
      get_person_by_id personnel x.approver_id = none)

theorem severityWeight_pos (sev : Option String) : 0 < severityWeight sev := by
  unfold severityWeight
  split <;> norm_num

theorem risk_weight_sum_nonneg (risks : List Risk) :
    0 ≤ (risks.map (fun r => severityWeight r.severity)).sum := by
  induction risks with
  | nil => simp
  | cons r rest ih =>
    simp only [List.map_cons, List.sum_cons]
    have := severityWeight_pos r.severity
    linarith

/-- C10: `evaluate_governance` (with o1 disabled, as the pipeline invokes it)
mutates its `Decision` argument: when `risk_score` is `None` on entry it is
set to the computed risk score, and every other field is left unchanged — the
post-state equals the input record with only `risk_score` updated. -/
theorem C10_risk_score_mutation (d : Decision) (rd : RulesData)
    (ctx : List (String × PyVal)) (h : d.risk_score = none) :
    (evaluate_governance d rd ctx).2 = { d with risk_score := some (compute_risk_score d) } := by
  simp [evaluate_governance, h]

/-- Witness for `C10_risk_score_mutation` at the concrete fixture `dBase`. -/
theorem C10_witness :
    dBase.risk_score = none ∧
    (evaluate_governance dBase rdOp []).2 =
      { dBase with risk_score := some (compute_risk_score dBase) } :=
  ⟨rfl, C10_risk_score_mutation dBase rdOp [] rfl⟩

/-- C7: the risk score used by governance equals the decision's own
`risk_score` when present, and otherwise the sum of severity weights
(critical 8, high 3, medium 1.5, low 0.5) over its risks clamped to 10; under
the `Decision` model invariant (`risk_score` validated into [0, 10]) the
result always lies in [0, 10]. -/
theorem C7_risk_score_bounds (d : Decision)
    (h : ∀ s, d.risk_score = some s → 0 ≤ s ∧ s ≤ 10) :
    (∀ s, d.risk_score = some s → compute_risk_score d = s) ∧
    (d.risk_score = none →
      compute_risk_score d =
        min ((d.risks.map (fun r => severityWeight r.severity)).sum) 10) ∧
    0 ≤ compute_risk_score d ∧ compute_risk_score d ≤ 10 := by
  refine ⟨fun s hs => by simp [compute_risk_score, hs], ?_, ?_, ?_⟩
  · intro hn
    by_cases he : d.risks = []
    · simp [compute_risk_score, hn, he]
    · simp [compute_risk_score, hn, he]
  · cases hrs : d.risk_score with
    | some s => simpa [compute_risk_score, hrs] using (h s hrs).1
    | none =>
      by_cases he : d.risks = []
      · simp [compute_risk_score, hrs, he]
      · simp only [compute_risk_score, hrs, he, if_false]
        exact le_min (risk_weight_sum_nonneg d.risks) (by norm_num)
  · cases hrs : d.risk_score with
    | some s => simpa [compute_risk_score, hrs] using (h s hrs).2
    | none =>
      by_cases he : d.risks = []
      · simp [compute_risk_score, hrs, he]
      · simp only [compute_risk_score, hrs, he, if_false]
        exact min_le_right _ _

/-- Witness for `C7_risk_score_bounds` at the concrete fixture `dBase`. -/
theorem C7_witness : 0 ≤ compute_risk_score dBase ∧ compute_risk_score dBase ≤ 10 :=
  (C7_risk_score_bounds dBase (by intro s hs; simp [dBase] at hs)).2.2

theorem review_bool_iff (F : List GovernanceFlag) (C : List ApprovalChainStep)
    (T : List TriggeredRuleInfo) (q conf : ℚ) (si : Option StrategicImpact) :
    ((decide (F.length > 0) || decide (C.length > 0) ||
      T.any (fun r => r.rule_type = "compliance" || r.rule_type = "privacy" ||
        r.rule_type = "strategic" || r.rule_type = "financial") ||
      decide (q ≥ 7) ||
      (match si with
       | some s => s.value == "high" || s.value == "critical"
       | none => false) ||
      decide (conf < 7/10)) = true ↔
      (F ≠ [] ∨ C ≠ [] ∨
       (∃ r ∈ T, r.rule_type = "compliance" ∨ r.rule_type = "privacy" ∨
          r.rule_type = "strategic" ∨ r.rule_type = "financial") ∨
       q ≥ 7 ∨ si = some StrategicImpact.high ∨ si = some StrategicImpact.critical ∨
       conf < 7/10)) := by
  have hT : (T.any (fun r => r.rule_type = "compliance" || r.rule_type = "privacy" ||
      r.rule_type = "strategic" || r.rule_type = "financial") = true) ↔
      (∃ r ∈ T, r.rule_type = "compliance" ∨ r.rule_type = "privacy" ∨
        r.rule_type = "strategic" ∨ r.rule_type = "financial") := by
    simp only [List.any_eq_true, Bool.or_eq_true, decide_eq_true_eq]
    exact exists_congr fun r => and_congr_right fun _ => by tauto
  generalize hb : T.any (fun r => r.rule_type = "compliance" || r.rule_type = "privacy" ||
    r.rule_type = "strategic" || r.rule_type = "financial") = b
  rw [hb] at hT
  rw [← hT]
  rcases si with _ | s
  · simp only [Bool.or_eq_true, decide_eq_true_eq, gt_iff_lt, List.length_pos,
      reduceCtorEq, or_false, false_or, ge_iff_le, Bool.false_eq_true]
    tauto
  · cases s <;>
      simp [Bool.or_eq_true, decide_eq_true_eq, List.length_pos,
        StrategicImpact.value] <;>
      tauto

/-- C5: `requires_human_review` is true if and only if: the flag list is
non-empty, or the approval chain is non-empty, or some triggered rule has type
compliance / privacy / strategic / financial, or the computed risk score is
>= 7.0, or `strategic_impact` is high or critical, or confidence < 0.7.
In particular (`dBase.confidence = 7/10`): at confidence exactly 0.7 with no
other condition the decision is not marked for review, at 0.69 it is. -/
theorem C5_requires_human_review_iff :
    (∀ (d : Decision) (rd : RulesData) (ctx : List (String × PyVal)),
      ((evaluate_governance d rd ctx).1.requires_human_review = true ↔
        ((evaluate_governance d rd ctx).1.flags ≠ [] ∨
         (evaluate_governance d rd ctx).1.approval_chain ≠ [] ∨
         (∃ r ∈ (evaluate_governance d rd ctx).1.triggered_rules,
            r.rule_type = "compliance" ∨ r.rule_type = "privacy" ∨
            r.rule_type = "strategic" ∨ r.rule_type = "financial") ∨
         (evaluate_governance d rd ctx).1.computed_risk_score ≥ 7 ∨
         d.strategic_impact = some StrategicImpact.high ∨
         d.strategic_impact = some StrategicImpact.critical ∨
         d.confidence < 7/10))) ∧
    (evaluate_governance dBase rdOp []).1.requires_human_review = false ∧
    (evaluate_governance { dBase with confidence := 69/100 } rdOp []).1.requires_human_review
      = true := by
  refine ⟨?_, ?_, ?_⟩
  · intro d rd ctx
    by_cases hrs : d.risk_score = none
    · have h := review_bool_iff
        (detect_flags { d with risk_score := some (compute_risk_score d) } ctx
          (compute_risk_score d)
          (select_approval_chain { d with risk_score := some (compute_risk_score d) } rd ctx).2
          (select_approval_chain { d with risk_score := some (compute_risk_score d) } rd ctx).1
          rd)
        (select_approval_chain { d with risk_score := some (compute_risk_score d) } rd ctx).1
        (select_approval_chain { d with risk_score := some (compute_risk_score d) } rd ctx).2
        (compute_risk_score d) d.confidence d.strategic_impact
      simpa only [evaluate_governance, hrs, if_true, if_pos] using h
    · have h := review_bool_iff
        (detect_flags d ctx (compute_risk_score d)
          (select_approval_chain d rd ctx).2 (select_approval_chain d rd ctx).1 rd)
        (select_approval_chain d rd ctx).1 (select_approval_chain d rd ctx).2
        (compute_risk_score d) d.confidence d.strategic_impact
      simpa only [evaluate_governance, hrs, if_false, if_neg] using h
  · simp [evaluate_governance, compute_risk_score, dBase, severityWeight, pyLower, charLower,
      select_approval_chain, rdOp, selectChainGo, ruleOperational, stepsForRule,
      evaluate_company_rule, evaluate_single_condition, extract_field_value,
      pyLe, PyVal.toNumQ, detect_flags, infer_owner_from_approval_chain,
      StrategicImpact.value]
    norm_num
    all_goals decide
  · simp [evaluate_governance, compute_risk_score, dBase, severityWeight, pyLower, charLower,
      select_approval_chain, rdOp, selectChainGo, ruleOperational, stepsForRule,
      evaluate_company_rule, evaluate_single_condition, extract_field_value,
      pyLe, PyVal.toNumQ, detect_flags, infer_owner_from_approval_chain,
      StrategicImpact.value]
    norm_num

theorem mem_ite_nil {c : Prop} [Decidable c] {a : GovernanceFlag} {l : List GovernanceFlag} :
    (a ∈ if c then l else []) ↔ c ∧ a ∈ l := by
  split <;> simp_all

theorem critical_conflict_mem_detect_flags (d : Decision) (ctx : List (String × PyVal))
    (c : ℚ) (trig : List TriggeredRuleInfo) (chain : List ApprovalChainStep)
    (rd : RulesData) :
    (GovernanceFlag.CRITICAL_CONFLICT ∈ detect_flags d ctx c trig chain rd ↔
      (d.kpis.length > 5 ∨ d.goals.length > 5)) := by
  simp [detect_flags, mem_ite_nil, List.mem_append]

/-- C2 (counterexample): a decision with 0 KPIs and 0 goals triggering a rule
whose consequence severity is critical does not receive CRITICAL_CONFLICT,
refuting the claimed "if" direction of the equivalence. -/
theorem C2_counterexample :
    (evaluate_governance dBase rdCrit []).1.triggered_rules =
      [⟨"R_CRIT", "Critical severity rule", "crit rule", "operational"⟩] ∧
    rdCrit.governance_rules = [ruleCriticalSeverity] ∧
    ruleCriticalSeverity.consequence.severity = some "critical" ∧
    dBase.kpis.length ≤ 5 ∧ dBase.goals.length ≤ 5 ∧
    GovernanceFlag.CRITICAL_CONFLICT ∉ (evaluate_governance dBase rdCrit []).1.flags := by
  refine ⟨?_, rfl, rfl, by simp [dBase], by simp [dBase], ?_⟩
  all_goals
    simp [evaluate_governance, compute_risk_score, dBase, severityWeight, pyLower, charLower,
      select_approval_chain, rdCrit, selectChainGo, ruleCriticalSeverity, stepsForRule,
      evaluate_company_rule, evaluate_single_condition, extract_field_value,
      pyLe, PyVal.toNumQ, detect_flags, infer_owner_from_approval_chain,
      StrategicImpact.value]
  all_goals norm_num

/-- C2 (amended): CRITICAL_CONFLICT is emitted if and only if the decision has
more than 5 KPIs or more than 5 goals; a critical-severity triggered rule does
not produce it.  In particular 5 KPIs do not receive the flag and 6 do. -/
theorem C2_critical_conflict_iff :
    ∀ (d : Decision) (rd : RulesData) (ctx : List (String × PyVal)),
      (GovernanceFlag.CRITICAL_CONFLICT ∈ (evaluate_governance d rd ctx).1.flags ↔
        (d.kpis.length > 5 ∨ d.goals.length > 5)) := by
  intro d rd ctx
  by_cases hrs : d.risk_score = none
  · have h := critical_conflict_mem_detect_flags
      { d with risk_score := some (compute_risk_score d) } ctx (compute_risk_score d)
      (select_approval_chain { d with risk_score := some (compute_risk_score d) } rd ctx).2
      (select_approval_chain { d with risk_score := some (compute_risk_score d) } rd ctx).1 rd
    simpa [evaluate_governance, hrs] using h
  · have h := critical_conflict_mem_detect_flags d ctx (compute_risk_score d)
      (select_approval_chain d rd ctx).2 (select_approval_chain d rd ctx).1 rd
    simpa [evaluate_governance, hrs] using h

theorem determine_status_characterization (flags : List String) (rev : Bool) (risk : ℚ) :
    (determine_risk_and_status flags rev risk).2 =
      (if flags.any (fun f => strContains f "CRITICAL") = true then "blocked"
       else if rev = true ∨ flags ≠ [] ∨ risk ≥ 4 then "needs_review" else "compliant") := by
  unfold determine_risk_and_status
  by_cases h1 : flags.any (fun f => strContains f "CRITICAL") = true
  · simp [h1]
  · by_cases h2 : risk ≥ 7
    · have h4 : risk ≥ 4 := by linarith
      simp [h1, h2, h4]
    · by_cases h3 : rev = true ∨ flags ≠ [] ∨ risk ≥ 4
      · have h3l : rev = true ∨ flags.length > 0 ∨ risk ≥ 4 := by
          rcases h3 with h | h | h
          · exact Or.inl h
          · exact Or.inr (Or.inl (List.length_pos.mpr h))
          · exact Or.inr (Or.inr h)
        simp [h1, h2, h3, h3l]
      · have h3l : ¬(rev = true ∨ flags.length > 0 ∨ risk ≥ 4) := by
          intro h
          rcases h with h | h | h
          · exact h3 (Or.inl h)
          · exact h3 (Or.inr (Or.inl (List.length_pos.mp h)))
          · exact h3 (Or.inr (Or.inr h))
        simp [h1, h2, h3, h3l]

/-- C1 (counterexample): an evaluated decision whose governance result has
empty flags, an empty approval chain and risk score 0.5 < 4, but
`requires_human_review = true` (confidence 0.5), receives pack status
"needs_review" — the claim predicts "compliant"; moreover the status string
the claim names, "review_required", is never produced by the pack builder. -/
theorem C1_counterexample :
    govLowConf.flags = [] ∧ govLowConf.approval_chain = [] ∧
    govLowConf.computed_risk_score < 4 ∧
    govLowConf.requires_human_review = true ∧
    (build_decision_pack { dBase with confidence := 1/2 } govLowConf
        none).summary.governance_status = "needs_review" ∧
    "needs_review" ≠ "compliant" ∧ "needs_review" ≠ "review_required" := by
  have hg : govLowConf =
      { approval_chain := [], flags := [], requires_human_review := true,
        triggered_rules := [infoOp], computed_risk_score := 1/2 } := by
    simp [govLowConf, GovernanceResult.to_dict, evaluate_governance, compute_risk_score,
      dBase, severityWeight, pyLower, charLower, select_approval_chain, rdOp, selectChainGo,
      ruleOperational, stepsForRule, evaluate_company_rule, evaluate_single_condition,
      extract_field_value, pyLe, PyVal.toNumQ, detect_flags,
      infer_owner_from_approval_chain, StrategicImpact.value, infoOp]
    norm_num
  refine ⟨by simp [hg], by simp [hg], by rw [hg]; norm_num, by simp [hg], ?_, by simp,
    by simp⟩
  simp [hg, build_decision_pack, determine_risk_and_status, strContains, containsSubChars,
    startsWithChars, generate_title]
  norm_num

/-- C1 (amended): the governance status placed in the pack summary is
"blocked" when any flag (after the pack builder possibly appends
STRATEGIC_MISALIGNMENT) contains the substring "CRITICAL"; otherwise
"needs_review" when `requires_human_review` is true OR the flag list is
non-empty OR the computed risk score is >= 4.0; otherwise "compliant". -/
theorem C1_governance_status (d : Decision) (gov : GovernanceDict)
    (gi : Option GraphInsights) :
    (build_decision_pack d gov gi).summary.governance_status =
      (if ((build_decision_pack d gov gi).audit_flags).any
            (fun f => strContains f "CRITICAL") = true then "blocked"
       else if gov.requires_human_review = true ∨
               (build_decision_pack d gov gi).audit_flags ≠ [] ∨
               gov.computed_risk_score ≥ 4 then "needs_review"
       else "compliant") := by
  simp only [build_decision_pack]
  exact determine_status_characterization _ _ _

theorem extractAux_count_le (attempts : Nat → Option Decision) (rd : RulesData)
    (text : String) : ∀ (r i : Nat), (extractAux attempts rd text i r).2 ≤ i + r := by
  intro r
  induction r with
  | zero => intro i; simp [extractAux]
  | succ r ih =>
    intro i
    simp only [extractAux]
    cases h : attempts i with
    | some d => simp
    | none =>
      simp only []
      have := ih (i + 1)
      omega

/-- C9: `extract` performs at most `max_retries + 1 = 3` attempts and is a
total function (the source catches every per-attempt exception, so it never
raises); when every attempt fails it returns the fallback response: the
Decision carries the truncated input inside its statement, has empty goals /
KPIs / risks / owners, confidence 0.1, and the response is marked
`requires_human_review = true`. -/
theorem C9_extract_fallback (attempts : Nat → Option Decision) (rd : RulesData)
    (text : String) :
    (extract 2 attempts rd text).2 ≤ 3 ∧
    ((∀ i, i < 3 → attempts i = none) →
      ((extract 2 attempts rd text).1.decision = create_fallback_decision text ∧
       (extract 2 attempts rd text).1.decision.decision_statement =
         "[EXTRACTION FAILED] " ++ pyTakeStr 100 text ++ "..." ∧
       (extract 2 attempts rd text).1.decision.goals = [] ∧
       (extract 2 attempts rd text).1.decision.kpis = [] ∧
       (extract 2 attempts rd text).1.decision.risks = [] ∧
       (extract 2 attempts rd text).1.decision.owners = [] ∧
       (extract 2 attempts rd text).1.decision.confidence = 1/10 ∧
       (extract 2 attempts rd text).1.fallback_used = true ∧
       (extract 2 attempts rd text).1.requires_human_review = true ∧
       (extract 2 attempts rd text).2 = 3)) := by
  constructor
  · exact extractAux_count_le attempts rd text 3 0
  · intro h
    have h0 := h 0 (by norm_num)
    have h1 := h 1 (by norm_num)
    have h2 := h 2 (by norm_num)
    simp [extract, extractAux, h0, h1, h2, create_fallback_decision]

/-- Witness for `C9_extract_fallback` with every attempt failing. -/
theorem C9_witness :
    (extract 2 (fun _ => none) rdOp "deploy without QA").1.fallback_used = true ∧
    (extract 2 (fun _ => none) rdOp "deploy without QA").1.requires_human_review = true ∧
    (extract 2 (fun _ => none) rdOp "deploy without QA").2 = 3 := by
  have h := (C9_extract_fallback (fun _ => none) rdOp "deploy without QA").2
    (by intro i hi; rfl)
  exact ⟨h.2.2.2.2.2.2.2.1, h.2.2.2.2.2.2.2.2.1, h.2.2.2.2.2.2.2.2.2⟩

/-- C4: concrete evaluation exhibiting the BFS defect.  In the two-node store
`gState` (`d1 -[TRIGGERS]-> r1`), `get_governance_context` at depth 1 returns
the edge to `r1` while the visited node set — what `node_count` counts and
what the `actors`/`policies`/`risks` sections are drawn from — contains only
`d1`: the returned edge has an endpoint outside the returned node set, and the
reachable Risk node is absent from `risks` although its edge is reported. -/
theorem C4_dangling_frontier_edge :
    (get_governance_context gState "d1" 1).edges = [gEdgeDR] ∧
    (get_governance_context gState "d1" 1).edge_count = 1 ∧
    (get_governance_context gState "d1" 1).node_count = 1 ∧
    (bfsRounds gState.edges 1 [] ["d1"] []).1 = ["d1"] ∧
    (get_governance_context gState "d1" 1).risks = [] ∧
    (get_governance_context gState "d1" 1).actors = [] ∧
    (get_governance_context gState "d1" 1).policies = [] ∧
    (get_governance_context gState "d1" 1).decision = some gNodeD ∧
    gEdgeDR.to_node = "r1" ∧ gNodeR.id = "r1" ∧ gNodeR.ntype = NodeType.Risk ∧
    gNodeR ∈ gState.nodes := by
  decide

theorem scanPersonnel_mem (stepRole : String) :
    ∀ (ps : List Person) (st : Nat × Option Person) (p : Person),
      (scanPersonnel stepRole ps st).2 = some p → st.2 = some p ∨ p ∈ ps := by
  intro ps
  induction ps with
  | nil => intro st p h; exact Or.inl h
  | cons q qs ih =>
    intro st p h
    rcases st with ⟨lvl, best⟩
    by_cases hc : pyUpper q.role = pyUpper stepRole ∧ q.level < lvl
    · simp only [scanPersonnel, if_pos hc] at h
      rcases ih (q.level, some q) p h with h1 | h1
      · simp at h1
        subst h1
        exact Or.inr (List.mem_cons_self q qs)
      · exact Or.inr (List.mem_cons_of_mem q h1)
    · simp only [scanPersonnel, if_neg hc] at h
      rcases ih (lvl, best) p h with h1 | h1
      · exact Or.inl h1
      · exact Or.inr (List.mem_cons_of_mem q h1)

theorem scanChain_mem (personnel : List Person) :
    ∀ (chain : List ApprovalChainStep) (st : Nat × Option Person) (p : Person),
      (scanChain personnel chain st).2 = some p → st.2 = some p ∨ p ∈ personnel := by
  intro chain
  induction chain with
  | nil => intro st p h; exact Or.inl h
  | cons s rest ih =>
    intro st p h
    simp only [scanChain] at h
    rcases ih (scanPersonnel s.role personnel st) p h with h1 | h1
    · exact scanPersonnel_mem s.role personnel st p h1
    · exact Or.inr h1

theorem findLowestApprover_mem (chain : List ApprovalChainStep)
    (personnel : List Person) (p : Person)
    (h : findLowestApprover chain personnel = some p) : p ∈ personnel := by
  rcases scanChain_mem personnel chain (999, none) p h with h1 | h1
  · simp at h1
  · exact h1

theorem infer_owner_ne_empty (chain : List ApprovalChainStep) (personnel : List Person)
    (hroles : ∀ p ∈ personnel, p.role ≠ "") :
    ∀ s, infer_owner_from_approval_chain chain personnel = some s → s ≠ "" := by
  intro s h
  unfold infer_owner_from_approval_chain at h
  by_cases hch : chain = []
  · simp [hch] at h
  · simp only [hch, if_false] at h
    cases hf : findLowestApprover chain personnel with
    | none => simp [hf] at h
    | some p =>
      have hp : p ∈ personnel := findLowestApprover_mem chain personnel p hf
      simp only [hf] at h
      by_cases hid : p.id = ""
      · simp [hid] at h
      · simp only [hid, if_false] at h
        cases hq : personnel.find? (fun q => q.reports_to = some p.id) with
        | some dr =>
          have hdr : dr ∈ personnel := List.mem_of_find?_eq_some hq
          simp [hq] at h
          subst h
          exact hroles dr hdr
        | none =>
          simp [hq] at h
          subst h
          exact hroles p hp

theorem missing_owner_mem_detect_flags (d : Decision) (ctx : List (String × PyVal))
    (c : ℚ) (trig : List TriggeredRuleInfo) (chain : List ApprovalChainStep)
    (rd : RulesData) :
    (GovernanceFlag.MISSING_OWNER ∈ detect_flags d ctx c trig chain rd ↔
      (d.owners = [] ∧
       pythonFalsyStrOpt
         (infer_owner_from_approval_chain chain rd.personnel) = true)) := by
  simp [detect_flags, mem_ite_nil, List.mem_append]

/-- C6: for a decision with empty owners, MISSING_OWNER is emitted iff owner
inference from the approval chain fails; inference returns none on an empty
chain, and otherwise resolves the lowest-level approver against personnel and
yields that approver's first direct report's role when one exists, else the
approver's own role.  The hypothesis that personnel roles are non-empty
strings rules out the degenerate empty-string role, which Python treats as
falsy. -/
theorem C6_missing_owner (d : Decision) (ctx : List (String × PyVal)) (c : ℚ)
    (trig : List TriggeredRuleInfo) (chain : List ApprovalChainStep) (rd : RulesData)
    (hown : d.owners = [])
    (hroles : ∀ p ∈ rd.personnel, p.role ≠ "") :
    ((GovernanceFlag.MISSING_OWNER ∈ detect_flags d ctx c trig chain rd ↔
        infer_owner_from_approval_chain chain rd.personnel = none) ∧
     infer_owner_from_approval_chain [] rd.personnel = none ∧
     (∀ p, findLowestApprover chain rd.personnel = some p → p.id ≠ "" →
        infer_owner_from_approval_chain chain rd.personnel =
          some (match rd.personnel.find? (fun q => q.reports_to = some p.id) with
                | some dr => dr.role
                | none => p.role))) := by
  refine ⟨?_, by simp [infer_owner_from_approval_chain], ?_⟩
  · rw [missing_owner_mem_detect_flags]
    cases hi : infer_owner_from_approval_chain chain rd.personnel with
    | none => simp [hown, pythonFalsyStrOpt]
    | some s =>
      have hs : s ≠ "" := infer_owner_ne_empty chain rd.personnel hroles s hi
      simp [hown, pythonFalsyStrOpt, hs]
  · intro p hf hid
    have hch : chain ≠ [] := by
      intro h
      subst h
      simp [findLowestApprover, scanChain] at hf
    simp only [infer_owner_from_approval_chain, hch, if_false, hf, hid]
    cases rd.personnel.find? (fun q => q.reports_to = some p.id) <;> rfl

/-- Witness for `C6_missing_owner` at a concrete owner-less decision. -/
theorem C6_witness :
    (GovernanceFlag.MISSING_OWNER ∈
        detect_flags { dBase with owners := [] } [] 0 [] [] rdOp ↔
      infer_owner_from_approval_chain [] rdOp.personnel = none) :=
  (C6_missing_owner { dBase with owners := [] } [] 0 [] [] rdOp rfl (by decide)).1

theorem filter_comp_map {α β : Type} (f : α → β) (p : β → Bool) (l : List α) :
    (l.filter (fun a => p (f a))).map f = (l.map f).filter p := by
  induction l with
  | nil => rfl
  | cons a rest ih =>
    simp only [List.filter_cons, List.map_cons]
    cases hpa : p (f a) <;> simp [hpa, ih]

/-- C8 (counterexample): for a tenant whose rule set contains an inactive
rule, `all_rules` carries that rule (stamped PASSED) although it lies outside
the tenant's active rule set — so `all_rules` does not partition the active
rule set. -/
theorem C8_counterexample :
    ruleInactive.active = false ∧
    ((normalize_rules [] [ruleInactive]).2.map (fun n => n.rule_id)) = ["R_OFF"] ∧
    (([ruleInactive].filter (fun r => r.active)).map (fun r => r.rule_id)) = [] ∧
    (evaluate_governance dBase ⟨personnelA, [ruleInactive]⟩ []).1.triggered_rules = [] := by
  refine ⟨rfl, by simp [normalize_rules, ruleInactive, truncate_description], by decide, ?_⟩
  simp [evaluate_governance, select_approval_chain, selectChainGo, ruleInactive]

/-- C8 (amended): `all_rules` equals the triggered rules (stamped TRIGGERED)
followed by the tenant's remaining rules (stamped PASSED); under distinct rule
ids (triggered ids drawn from the tenant set) this union is a permutation of
the tenant's FULL rule set — active and inactive alike — and each rule id
appears exactly once, with status TRIGGERED exactly on the triggered ids. -/
theorem C8_all_rules_partition (triggered : List TriggeredRuleInfo) (company : List Rule)
    (hc : (company.map (fun r => r.rule_id)).Nodup)
    (ht : (triggered.map (fun r => r.rule_id)).Nodup)
    (hsub : ∀ t ∈ triggered, t.rule_id ∈ company.map (fun r => r.rule_id)) :
    (((normalize_rules triggered company).2.map (fun n => n.rule_id)).Perm
        (company.map (fun r => r.rule_id)) ∧
     ((normalize_rules triggered company).2.map (fun n => n.rule_id)).Nodup ∧
     (∀ n ∈ (normalize_rules triggered company).2,
        ((n.status = RuleStatus.TRIGGERED ↔
           n.rule_id ∈ triggered.map (fun r => r.rule_id)) ∧
         (n.status = RuleStatus.PASSED ↔
           n.rule_id ∉ triggered.map (fun r => r.rule_id))))) := by
  have hids : ((normalize_rules triggered company).2.map (fun n => n.rule_id)) =
      (triggered.map (fun r => r.rule_id)) ++
        ((company.map (fun r => r.rule_id)).filter
          (fun x => x ∉ triggered.map (fun r => r.rule_id))) := by
    unfold normalize_rules
    simp only [List.map_append, List.map_map]
    congr 1
    exact filter_comp_map (fun r : Rule => r.rule_id)
      (fun x => decide (x ∉ triggered.map (fun r : TriggeredRuleInfo => r.rule_id))) company
  have hperm : ((normalize_rules triggered company).2.map (fun n => n.rule_id)).Perm
      (company.map (fun r => r.rule_id)) := by
    rw [hids]
    have h1 : (triggered.map (fun r => r.rule_id)).Perm
        ((company.map (fun r => r.rule_id)).filter
          (fun x => x ∈ triggered.map (fun r => r.rule_id))) := by
      refine (List.perm_ext_iff_of_nodup ht (hc.filter _)).mpr ?_
      intro a
      simp only [List.mem_filter, decide_eq_true_eq]
      constructor
      · intro ha
        refine ⟨?_, ha⟩
        rcases List.mem_map.mp ha with ⟨t, htmem, rfl⟩
        exact hsub t htmem
      · intro ha
        exact ha.2
    refine ((h1.append_right _).trans ?_)
    have h2 := List.filter_append_perm
      (fun x => x ∈ triggered.map (fun r => r.rule_id))
      (company.map (fun r => r.rule_id))
    refine List.Perm.trans ?_ h2
    apply List.Perm.append_left
    apply List.Perm.of_eq
    apply List.filter_congr
    intro x _
    rw [← decide_not]
  refine ⟨hperm, hperm.nodup_iff.mpr hc, ?_⟩
  intro n hn
  simp only [normalize_rules, List.mem_append, List.mem_map, List.mem_filter] at hn
  rcases hn with ⟨t, htmem, rfl⟩ | ⟨r, hrmem, rfl⟩
  · constructor
    · constructor
      · intro _
        exact List.mem_map.mpr ⟨t, htmem, rfl⟩
      · intro _
        rfl
    · constructor
      · intro h
        cases h
      · intro h
        exact absurd (List.mem_map.mpr ⟨t, htmem, rfl⟩) h
  · have hnot : r.rule_id ∉ triggered.map (fun x => x.rule_id) := by
      simpa using hrmem.2
    constructor
    · constructor
      · intro h
        cases h
      · intro h
        exact absurd h hnot
    · constructor
      · intro _
        exact hnot
      · intro _
        rfl

/-- Witness for `C8_all_rules_partition` at a concrete tenant with one
triggered and one untriggered rule. -/
theorem C8_witness :
    ((normalize_rules [infoOp] [ruleOperational, ruleInactive]).2.map
        (fun n => n.rule_id)).Perm
      ([ruleOperational, ruleInactive].map (fun r => r.rule_id)) ∧
    ((normalize_rules [infoOp] [ruleOperational, ruleInactive]).2.map
        (fun n => n.rule_id)).Nodup :=
  ⟨(C8_all_rules_partition [infoOp] [ruleOperational, ruleInactive]
      (by decide) (by decide) (by decide)).1,
   (C8_all_rules_partition [infoOp] [ruleOperational, ruleInactive]
      (by decide) (by decide) (by decide)).2.1⟩

theorem escalate_ge_left (c i : String) :
    severityRankValue c ≤ severityRankValue (escalateSeverity c i) := by
  unfold escalateSeverity
  split <;> omega

theorem escalate_ge_right (c i : String) :
    severityRankValue i ≤ severityRankValue (escalateSeverity c i) := by
  unfold escalateSeverity
  split <;> omega

theorem escalate_eq_or (c i : String) :
    escalateSeverity c i = c ∨ escalateSeverity c i = i := by
  unfold escalateSeverity
  split
  · exact Or.inr rfl
  · exact Or.inl rfl

theorem head?_append_left {l l2 : List String} (h : l ≠ []) :
    (l ++ l2).head? = l.head? := by
  cases l with
  | nil => exact absurd rfl h
  | cons x xs => rfl

theorem applyDuplicate_id (a : ApprovalRequirement) (u : UniqueApproval) :
    (applyDuplicate a u).approver_id = u.approver_id := rfl

theorem chainEntryOk_extend_ne (pr : List ApprovalRequirement)
    (a : ApprovalRequirement) (u : UniqueApproval)
    (hne : u.approver_id ≠ a.approver_id) (h : chainEntryOk pr u) :
    chainEntryOk (pr ++ [a]) u := by
  obtain ⟨h1, h2, h3, h4, h5⟩ := h
  have hane : a.approver_id ≠ u.approver_id := fun heq => hne heq.symm
  refine ⟨?_, ?_, ?_, ?_, ?_⟩
  · rw [List.find?_append]
    simp [hane, h1]
  · rw [List.find?_append]
    simp [hane, h2]
  · rw [List.filter_append]
    simp only [List.map_append]
    exact List.mem_append_left _ h3
  · intro x hx hxid
    rcases List.mem_append.mp hx with hx | hx
    · exact h4 x hx hxid
    · rw [List.mem_singleton.mp hx] at hxid
      exact absurd hxid hane
  · obtain ⟨x, hxmem, hxid⟩ := h5
    exact ⟨x, List.mem_append_left _ hxmem, hxid⟩

theorem chainEntryOk_extend_dup (pr : List ApprovalRequirement)
    (a : ApprovalRequirement) (u : UniqueApproval)
    (heq : u.approver_id = a.approver_id) (h : chainEntryOk pr u) :
    chainEntryOk (pr ++ [a]) (applyDuplicate a u) := by
  obtain ⟨h1, h2, h3, h4, h5⟩ := h
  have hfne : pr.find? (fun x => x.approver_id = u.approver_id) ≠ none := by
    intro hnone
    rw [List.find?_eq_none] at hnone
    obtain ⟨x, hxmem, hxid⟩ := h5
    have := hnone x hxmem
    simp [hxid] at this
  obtain ⟨y, hy⟩ := Option.ne_none_iff_exists'.mp hfne
  have hrne : u.reasons ≠ [] := by
    intro hnil
    rw [hy, hnil] at h1
    simp at h1
  have htne : u.triggered_rules ≠ [] := by
    intro hnil
    rw [hy, hnil] at h2
    simp at h2
  have haeq : a.approver_id = u.approver_id := heq.symm
  refine ⟨?_, ?_, ?_, ?_, ?_⟩
  · show ((pr ++ [a]).find? (fun x => x.approver_id = u.approver_id)).map
        (fun x => x.reason) = (u.reasons ++ [a.reason]).head?
    rw [List.find?_append, hy, head?_append_left hrne]
    rw [hy] at h1
    simpa using h1
  · show ((pr ++ [a]).find? (fun x => x.approver_id = u.approver_id)).map
        (fun x => x.rule_id) = (u.triggered_rules ++ [a.rule_id]).head?
    rw [List.find?_append, hy, head?_append_left htne]
    rw [hy] at h2
    simpa using h2
  · show escalateSeverity u.severity a.severity ∈
      ((pr ++ [a]).filter (fun x => x.approver_id = u.approver_id)).map
        (fun x => x.severity)
    rw [List.filter_append]
    simp only [List.map_append]
    rcases escalate_eq_or u.severity a.severity with he | he
    · rw [he]
      exact List.mem_append_left _ h3
    · rw [he]
      refine List.mem_append_right _ ?_
      simp [haeq]
  · intro x hx hxid
    show severityRankValue x.severity ≤
      severityRankValue (escalateSeverity u.severity a.severity)
    rcases List.mem_append.mp hx with hx | hx
    · exact le_trans (h4 x hx hxid) (escalate_ge_left _ _)
    · rw [List.mem_singleton.mp hx]
      exact escalate_ge_right _ _
  · obtain ⟨x, hxmem, hxid⟩ := h5
    exact ⟨x, List.mem_append_left _ hxmem, hxid⟩

theorem chainEntryOk_new (pr : List ApprovalRequirement) (a : ApprovalRequirement)
    (p : Person) (hnomatch : ∀ x ∈ pr, x.approver_id ≠ a.approver_id) :
    chainEntryOk (pr ++ [a])
      { approver_id := a.approver_id, approver_name := p.name,
        approver_role := a.approver_role, level := p.level,
        reasons := [a.reason], triggered_rules := [a.rule_id],
        severity := a.severity } := by
  have hfn : pr.find? (fun x => x.approver_id = a.approver_id) = none := by
    rw [List.find?_eq_none]
    intro x hx
    simp [hnomatch x hx]
  have hfl : pr.filter (fun x => x.approver_id = a.approver_id) = [] := by
    rw [List.filter_eq_nil_iff]
    intro x hx
    simp [hnomatch x hx]
  refine ⟨?_, ?_, ?_, ?_, ?_⟩
  · rw [List.find?_append]
    simp [hfn]
  · rw [List.find?_append]
    simp [hfn]
  · rw [List.filter_append]
    simp [hfl]
  · intro x hx hxid
    rcases List.mem_append.mp hx with hx | hx
    · exact absurd hxid (hnomatch x hx)
    · rw [List.mem_singleton.mp hx]
  · exact ⟨a, List.mem_append_right _ (List.mem_singleton_self a), rfl⟩

theorem map_proj_congr {α β : Type} (f g : α → β) (l : List α) (h : ∀ x ∈ l, f x = g x) :
    l.map f = l.map g := by
  induction l with
  | nil => rfl
  | cons x xs ih =>
    simp only [List.map_cons]
    rw [h x (List.mem_cons_self x xs), ih (fun y hy => h y (List.mem_cons_of_mem x hy))]

theorem insertApproval_inv (personnel : List Person) (pr : List ApprovalRequirement)
    (acc : List UniqueApproval) (a : ApprovalRequirement)
    (h : chainBuildInv personnel pr acc) :
    chainBuildInv personnel (pr ++ [a]) (insertApproval personnel acc a) := by
  obtain ⟨hnd, hper, hC⟩ := h
  unfold insertApproval
  by_cases hmem : acc.any (fun u => u.approver_id = a.approver_id) = true
  · rw [if_pos hmem]
    obtain ⟨w, hw, hwid⟩ : ∃ u ∈ acc, u.approver_id = a.approver_id := by
      simpa using hmem
    have hupd_id : ∀ u : UniqueApproval,
        ((if u.approver_id = a.approver_id then applyDuplicate a u else u).approver_id)
          = u.approver_id := by
      intro u
      by_cases hc : u.approver_id = a.approver_id <;> simp [hc, applyDuplicate]
    refine ⟨?_, ?_, ?_⟩
    · have heqids := map_proj_congr
        ((fun u => u.approver_id) ∘
          (fun u => if u.approver_id = a.approver_id then applyDuplicate a u else u))
        (fun u => u.approver_id) acc
        (fun x _ => by simp only [Function.comp_apply]; exact hupd_id x)
      rw [List.map_map, heqids]
      exact hnd
    · intro u' hu'
      rcases List.mem_map.mp hu' with ⟨u, hu, rfl⟩
      by_cases hcase : u.approver_id = a.approver_id
      · rw [if_pos hcase]
        exact chainEntryOk_extend_dup pr a u hcase (hper u hu)
      · rw [if_neg hcase]
        exact chainEntryOk_extend_ne pr a u hcase (hper u hu)
    · intro x hx hcontra
      rcases List.mem_append.mp hx with hx | hx
      · apply hC x hx
        intro u hu
        have h2 := hcontra
          (if u.approver_id = a.approver_id then applyDuplicate a u else u)
          (List.mem_map_of_mem _ hu)
        rw [hupd_id u] at h2
        exact h2
      · exfalso
        have h2 := hcontra
          (if w.approver_id = a.approver_id then applyDuplicate a w else w)
          (List.mem_map_of_mem _ hw)
        rw [hupd_id w] at h2
        rw [List.mem_singleton.mp hx] at h2
        exact h2 hwid
  · rw [if_neg hmem]
    have haccne : ∀ u ∈ acc, u.approver_id ≠ a.approver_id := by
      intro u hu heq
      exact hmem (List.any_eq_true.mpr ⟨u, hu, by simp [heq]⟩)
    cases hp : get_person_by_id personnel a.approver_id with
    | some p =>
      have hnomatch : ∀ x ∈ pr, x.approver_id ≠ a.approver_id := by
        intro x hx hxid
        have hnone := hC x hx (fun u hu heq => haccne u hu (heq.symm ▸ hxid))
        rw [hxid, hp] at hnone
        simp at hnone
      refine ⟨?_, ?_, ?_⟩
      · rw [List.map_append]
        refine List.Nodup.append hnd (List.nodup_singleton _) ?_
        intro x hx1 hx2
        rcases List.mem_map.mp hx1 with ⟨u, hu, rfl⟩
        simp only [List.map_cons, List.map_nil, List.mem_singleton] at hx2
        exact haccne u hu hx2
      · intro u' hu'
        rcases List.mem_append.mp hu' with hu | hu
        · exact chainEntryOk_extend_ne pr a _ (haccne _ hu) (hper _ hu)
        · rw [List.mem_singleton.mp hu]
          exact chainEntryOk_new pr a p hnomatch
      · intro x hx hcontra
        rcases List.mem_append.mp hx with hx | hx
        · apply hC x hx
          intro u hu
          exact hcontra u (List.mem_append_left _ hu)
        · exfalso
          have h2 := hcontra _ (List.mem_append_right _ (List.mem_singleton_self _))
          rw [List.mem_singleton.mp hx] at h2
          exact h2 rfl
    | none =>
      refine ⟨hnd, ?_, ?_⟩
      · intro u hu
        exact chainEntryOk_extend_ne pr a u (haccne u hu) (hper u hu)
      · intro x hx hcontra
        rcases List.mem_append.mp hx with hx | hx
        · exact hC x hx hcontra
        · rw [List.mem_singleton.mp hx]
          exact hp

theorem chainBuildInv_nil (personnel : List Person) : chainBuildInv personnel [] [] := by
  refine ⟨by simp, by simp, by simp⟩

theorem foldl_insertApproval_inv (personnel : List Person) :
    ∀ (reqs pr : List ApprovalRequirement) (acc : List UniqueApproval),
      chainBuildInv personnel pr acc →
      chainBuildInv personnel (pr ++ reqs) (reqs.foldl (insertApproval personnel) acc) := by
  intro reqs
  induction reqs with
  | nil =>
    intro pr acc h
    simpa using h
  | cons a rest ih =>
    intro pr acc h
    have h1 := insertApproval_inv personnel pr acc a h
    have h2 := ih (pr ++ [a]) _ h1
    simpa [List.append_assoc] using h2

theorem insertAfterGE_perm (a : UniqueApproval) (l : List UniqueApproval) :
    (insertAfterGE a l).Perm (a :: l) := by
  induction l with
  | nil => exact List.Perm.refl _
  | cons b rest ih =>
    unfold insertAfterGE
    by_cases h : b.level ≥ a.level
    · rw [if_pos h]
      exact (ih.cons b).trans (List.Perm.swap a b rest)
    · rw [if_neg h]

theorem sortApprovalsDesc_perm (l : List UniqueApproval) : (sortApprovalsDesc l).Perm l := by
  suffices h : ∀ (m acc : List UniqueApproval),
      (m.foldl (fun acc a => insertAfterGE a acc) acc).Perm (acc ++ m) by
    simpa [sortApprovalsDesc] using h l []
  intro m
  induction m with
  | nil => intro acc; simp
  | cons a rest ih =>
    intro acc
    have h1 := ih (insertAfterGE a acc)
    have h2 : (insertAfterGE a acc ++ rest).Perm (acc ++ a :: rest) := by
      refine ((insertAfterGE_perm a acc).append_right rest).trans ?_
      exact List.perm_middle.symm
    simpa using h1.trans h2

/-- C3: in `build_approval_chain`, each approver id appears at most once in
the chain; for each step, the FIRST approval requirement with that approver
id (requirements arrive in declared rule order from `enforce_rules`) supplies
the head of the step's reasons and of its triggered-rule ids — the fields
playing the role of rationale and source_rule_id; and the step's severity is
one of the duplicate triggers' severities and rank-dominates all of them
under the low<medium<high<critical order, i.e. it is their escalated
maximum. -/
theorem C3_build_approval_chain (reqs : List ApprovalRequirement)
    (personnel : List Person) :
    ((build_approval_chain reqs personnel).map (fun u => u.approver_id)).Nodup ∧
    (∀ u ∈ build_approval_chain reqs personnel,
      ((reqs.find? (fun a => a.approver_id = u.approver_id)).map (fun a => a.reason) =
          u.reasons.head?) ∧
      ((reqs.find? (fun a => a.approver_id = u.approver_id)).map (fun a => a.rule_id) =
          u.triggered_rules.head?) ∧
      u.severity ∈ (reqs.filter (fun a => a.approver_id = u.approver_id)).map
        (fun a => a.severity) ∧
      (∀ a ∈ reqs, a.approver_id = u.approver_id →
          severityRankValue a.severity ≤ severityRankValue u.severity)) := by
  have hinv := foldl_insertApproval_inv personnel reqs [] [] (chainBuildInv_nil personnel)
  rw [List.nil_append] at hinv
  obtain ⟨hnd, hper, -⟩ := hinv
  have hperm := sortApprovalsDesc_perm (reqs.foldl (insertApproval personnel) [])
  constructor
  · exact ((hperm.map (fun u => u.approver_id)).nodup_iff).mpr hnd
  · intro u hu
    have humem : u ∈ reqs.foldl (insertApproval personnel) [] := hperm.mem_iff.mp hu
    obtain ⟨h1, h2, h3, h4, h5⟩ := hper u humem
    exact ⟨h1, h2, h3, h4⟩

end DecisionGov
